import Mathlib

/-!
Verification development for the ambient-soundscape audio engine of the
flowstate-pwa repository (`src/components/Timer.tsx`, hook `useAudioEngine`).

The engine is embedded shallowly:
* `createNoiseBuffer` and its per-color sample recurrences are translated
  directly from the source; the stream of `Math.random()` outputs is an
  explicit input `rs : ℕ → ℚ` with `0 ≤ rs i < 1`.
* The stateful hook is embedded as explicit state passing over `Engine`.
  Web Audio `AudioParam` schedules always follow the source's
  cancel / setValueAtTime(current) / linearRampToValueAtTime pattern, so a
  param is one linear `Ramp` record; node graphs are records of the fields
  the source manipulates.  React `useState` semantics are kept: a setter's
  write is committed only after the event handler returns, so reads inside
  the same handler (the closures of `startMode` etc.) see the values of the
  render the handler was created in, while `useRef` mutations are immediate.
  Successive public calls (separate UI events) see committed state.
* `AudioBufferSourceNode.start` on an already-started node raises
  `InvalidStateError`; operations therefore return `Engine × Option AErr`.
-/

namespace FlowState

/-- Source constant `FADE_TIME = 0.5` (seconds), used for crossfade and on/off. -/
def FADE_TIME : ℚ := 0.5

inductive SoundMode where
  | rain | wind | waves
deriving DecidableEq, Repr

inductive NoiseColor where
  | white | pink | brown
deriving DecidableEq, Repr

/-! ## NoiseGenerator (`createNoiseBuffer`) -/

/-- Value `Math.random() * 2 - 1` at index `i` of the random stream. -/
def whiteAt (rs : ℕ → ℚ) (i : ℕ) : ℚ := rs i * 2 - 1

/-- State `b0 … b6` of the Paul Kellet pink-noise filter. -/
structure PinkState where
  b0 : ℚ
  b1 : ℚ
  b2 : ℚ
  b3 : ℚ
  b4 : ℚ
  b5 : ℚ
  b6 : ℚ
deriving DecidableEq, Repr

def pinkInit : PinkState := ⟨0, 0, 0, 0, 0, 0, 0⟩

/-- One iteration of the pink-noise state update (source lines updating
`b0 … b6`; note `b6` is overwritten only after the output is formed). -/
def pinkStep (st : PinkState) (white : ℚ) : PinkState where
  b0 := 0.99886 * st.b0 + white * 0.0555179
  b1 := 0.99332 * st.b1 + white * 0.0750759
  b2 := 0.969 * st.b2 + white * 0.153852
  b3 := 0.8665 * st.b3 + white * 0.3104856
  b4 := 0.55 * st.b4 + white * 0.5329522
  b5 := -0.7616 * st.b5 - white * 0.016898
  b6 := white * 0.115926

/-- The written sample: updated `b0 … b5`, the PREVIOUS `b6`, plus the
direct white term, scaled by the `0.11` normalization gain. -/
def pinkOut (st : PinkState) (white : ℚ) : ℚ :=
  let n := pinkStep st white
  (n.b0 + n.b1 + n.b2 + n.b3 + n.b4 + n.b5 + st.b6 + white * 0.5362) * 0.11

/-- Pink filter state before sample `i` (all `b`s start at 0). -/
def pinkStateAt (rs : ℕ → ℚ) : ℕ → PinkState
  | 0 => pinkInit
  | i + 1 => pinkStep (pinkStateAt rs i) (whiteAt rs i)

/-- Brown noise integrator value `lastOut` after `n` updates
(`lastOut = (lastOut + 0.02 * white) / 1.02`, starting at 0). -/
def brownLast (rs : ℕ → ℚ) : ℕ → ℚ
  | 0 => 0
  | i + 1 => (brownLast rs i + 0.02 * whiteAt rs i) / 1.02

/-- Sample `i` written by `createNoiseBuffer` for each noise color. -/
def noiseSample (c : NoiseColor) (rs : ℕ → ℚ) (i : ℕ) : ℚ :=
  match c with
  | .white => whiteAt rs i
  | .pink => pinkOut (pinkStateAt rs i) (whiteAt rs i)
  | .brown => brownLast rs (i + 1) * 3.5

/-- Function `createNoiseBuffer(context, type, durationSec)`: a mono buffer of
`length = sampleRate * durationSec` samples. -/
def createNoiseBuffer (c : NoiseColor) (rs : ℕ → ℚ)
    (sampleRate durationSec : ℕ) : List ℚ :=
  (List.range (sampleRate * durationSec)).map (noiseSample c rs)

/-! ## AudioParam schedules -/

/-- A scheduled linear ramp on an `AudioParam`: value `v0` up to time `t0`,
linear to `v1` at time `t1`, then `v1`.  Every write in the source follows
`cancelScheduledValues` / `setValueAtTime(current, now)` /
`linearRampToValueAtTime(target, now + d)`, so one record is the whole
schedule. -/
structure Ramp where
  t0 : ℚ
  v0 : ℚ
  t1 : ℚ
  v1 : ℚ
deriving DecidableEq, Repr

/-- A constant schedule (e.g. a freshly created gain node). -/
def Ramp.const (v : ℚ) : Ramp := ⟨0, v, 0, v⟩

/-- The param's value at time `t` (`param.value` read at `t`). -/
def Ramp.valueAt (r : Ramp) (t : ℚ) : ℚ :=
  if t ≤ r.t0 then r.v0
  else if r.t1 ≤ t then r.v1
  else r.v0 + (r.v1 - r.v0) * ((t - r.t0) / (r.t1 - r.t0))

/-- Sequence `cancelScheduledValues(now); setValueAtTime(current, now);
linearRampToValueAtTime(target, now + dur)`. -/
def Ramp.rampTo (r : Ramp) (now target dur : ℚ) : Ramp :=
  ⟨now, r.valueAt now, now + dur, target⟩

/-! ## Node graphs (`ModeNodes`) -/

/-- An `AudioScheduledSourceNode` (buffer source or oscillator): whether
`start()` has been called, and any scheduled `stop(t)` time. -/
structure SNode where
  started : Bool
  stopAt : Option ℚ
deriving DecidableEq, Repr

/-- Guarded stop, `try node.stop(t) catch ignore`: a stop on a node that was
never started throws and is swallowed, leaving the node unchanged. -/
def stopCaught (n : SNode) (t : ℚ) : SNode :=
  if n.started then { n with stopAt := some t } else n

/-- The `ModeNodes` record returned by `buildModeNodes`, with the ghost
fields needed by the claims: `masterIdx` records which master-gain instance
(creation index) the output gain was connected to at build time, and
`disconnectedAt` the time at which `stopModeNodes` disconnected the graph. -/
structure Graph where
  gmode : SoundMode
  gain : Ramp
  source : SNode
  spraySource : Option SNode
  lfoOsc : Option SNode
  panOsc : Option SNode
  masterIdx : Option ℕ
  disconnectedAt : Option ℚ
deriving DecidableEq, Repr

/-! ## Engine state -/

inductive AErr where
  | invalidState
deriving DecidableEq, Repr

/-- The hook's state: the three `useState` cells (`mode`, `enabled`,
`volume`) and the refs (`audioCtxRef`, `masterGainRef`, `currentNodesRef`).
`masterCreations` counts master-gain creations; `retired` is the ghost
history of graphs handed to `stopModeNodes`. -/
structure Engine where
  mode : SoundMode
  enabled : Bool
  volume : ℚ
  ctxCreated : Bool
  masterCreations : ℕ
  master : Option Ramp
  current : Option Graph
  retired : List Graph
deriving DecidableEq, Repr

/-- Initial hook state: `mode = 'rain'`, `enabled = false`, `volume = 0.4`,
no audio context yet. -/
def Engine.init : Engine :=
  { mode := .rain, enabled := false, volume := 0.4, ctxCreated := false
    masterCreations := 0, master := none, current := none, retired := [] }

/-- Function `ensureContext`: lazily create the context and the single master gain
(initial gain value 0, connected to the destination). -/
def ensureContext (s : Engine) : Engine :=
  if s.ctxCreated then s
  else
    { s with ctxCreated := true, master := some (Ramp.const 0)
             masterCreations := s.masterCreations + 1 }

/-- Function `resumeContextIfNeeded`: ensure the context exists and fire-and-forget
a `resume()`; the suspended/running distinction is not observable in the
claims, so resuming is state-neutral here. -/
def resumeContextIfNeeded (s : Engine) : Engine := ensureContext s

/-- Function `stopModeNodes(nodes, ctx, fadeOut = true)` (the only form the engine
uses): fade the graph gain to 0 over `FADE_TIME`, schedule the buffer
sources to stop at `now + FADE_TIME` (inside try/catch), then immediately
disconnect the whole graph and stop the oscillators (which were started at
build time) with no delay. -/
def stopModeNodes (g : Graph) (now : ℚ) : Graph :=
  { g with
    gain := g.gain.rampTo now 0 FADE_TIME
    source := stopCaught g.source (now + FADE_TIME)
    spraySource := g.spraySource.map (fun n => stopCaught n (now + FADE_TIME))
    disconnectedAt := some now
    lfoOsc := g.lfoOsc.map (fun n => { n with stopAt := some now })
    panOsc := g.panOsc.map (fun n => { n with stopAt := some now }) }

/-- Function `buildModeNodes(ctx, mode)`.  A fresh gain node has value 1.  For
`waves` the body source, spray source and both oscillators are started
during construction; for `rain`/`wind` only the wind LFO is started here —
the noise source is started later by `startMode`.  The output gain is
connected to the master gain that exists at build time (`hasMaster`,
`mcount` are `masterGainRef.current`'s presence and creation index). -/
def buildModeNodes (hasMaster : Bool) (mcount : ℕ) (m : SoundMode) : Graph :=
  let midx : Option ℕ := if hasMaster then some mcount else none
  match m with
  | .waves =>
      { gmode := .waves, gain := Ramp.const 1
        source := ⟨true, none⟩
        spraySource := some ⟨true, none⟩
        lfoOsc := some ⟨true, none⟩
        panOsc := some ⟨true, none⟩
        masterIdx := midx, disconnectedAt := none }
  | .rain =>
      { gmode := .rain, gain := Ramp.const 1
        source := ⟨false, none⟩
        spraySource := none, lfoOsc := none, panOsc := none
        masterIdx := midx, disconnectedAt := none }
  | .wind =>
      { gmode := .wind, gain := Ramp.const 1
        source := ⟨false, none⟩
        spraySource := none
        lfoOsc := some ⟨true, none⟩
        panOsc := none
        masterIdx := midx, disconnectedAt := none }

/-- Function `startMode(newMode)`.  Reads `enabled`/`volume` from its closure, i.e.
from the state the handler was rendered with (`s`).  Fades/retires the old
graph, builds and installs the new one, sets its gain to 0 at `now`, calls
`nodes.source.start?.()` — which throws `InvalidStateError` when the source
was already started during construction (waves) — and only then schedules
the gain ramp to `enabled ? volume : 0`. -/
def startMode (s : Engine) (now : ℚ) (m : SoundMode) : Engine × Option AErr :=
  let s1 := resumeContextIfNeeded s
  let s2 :=
    match s1.current with
    | some old => { s1 with retired := stopModeNodes old now :: s1.retired }
    | none => s1
  let g0 := buildModeNodes s2.master.isSome s2.masterCreations m
  let g1 := { g0 with gain := (⟨now, 0, now, 0⟩ : Ramp) }
  if g1.source.started then
    ({ s2 with current := some g1 }, some .invalidState)
  else
    let target := if s.enabled then s.volume else 0
    let g2 := { g1 with source := { g1.source with started := true }
                        gain := (⟨now, 0, now + FADE_TIME, target⟩ : Ramp) }
    ({ s2 with current := some g2 }, none)

/-- Function `stopAll`: no-op when no context was ever created; otherwise ramp the
master gain to 0, fade/stop/disconnect the current graph (if any) and clear
`currentNodesRef`. -/
def stopAll (s : Engine) (now : ℚ) : Engine :=
  if s.ctxCreated then
    let s1 :=
      match s.master with
      | some mr => { s with master := some (mr.rampTo now 0 FADE_TIME) }
      | none => s
    match s1.current with
    | some g =>
        { s1 with retired := stopModeNodes g now :: s1.retired, current := none }
    | none => s1
  else s

/-! ## Public operations -/

/-- Operation `setMode(newMode)`: queue `setModeState(newMode)` (committed after the
handler); if the rendered `enabled` is false, nothing else happens. -/
def setModeOp (s : Engine) (now : ℚ) (m : SoundMode) : Engine × Option AErr :=
  if s.enabled then
    let r := startMode s now m
    ({ r.1 with mode := m }, r.2)
  else
    ({ s with mode := m }, none)

/-- Operation `setEnabled(on)`: queue `setEnabledState(on)`; on `true`, unlock the
context and start the rendered mode (whose closures still see the OLD
`enabled`); on `false`, `stopAll()`. -/
def setEnabledOp (s : Engine) (now : ℚ) (flag : Bool) : Engine × Option AErr :=
  if flag then
    let s1 := resumeContextIfNeeded s
    let r := startMode s1 now s.mode
    ({ r.1 with enabled := true }, r.2)
  else
    ({ stopAll s now with enabled := false }, none)

/-- Operation `setVolume(v)`: clamp to `[0,1]`, queue the store; if the context and a
graph exist, cancel the graph gain's schedule and ramp it from its current
value to the clamped volume over 0.2 s.  Never raises. -/
def setVolumeOp (s : Engine) (now : ℚ) (v : ℚ) : Engine × Option AErr :=
  let clamped := max 0 (min 1 v)
  let s1 :=
    if s.ctxCreated then
      match s.current with
      | some g =>
          { s with current := some { g with gain := g.gain.rampTo now clamped 0.2 } }
      | none => s
    else s
  ({ s1 with volume := clamped }, none)

/-- The master-gain target of the reactive effect (source lines 529–537):
`(!enabled ? 0 : isRunning && !isBreak ? 1 : 0.3) * volume`. -/
def masterGainTarget (enabled isRunning isBreak : Bool) (volume : ℚ) : ℚ :=
  (if ¬enabled then 0 else if isRunning ∧ ¬isBreak then 1 else 0.3) * volume

/-- The `useEffect` over `[isRunning, isBreak, enabled, volume]`: bail when
no context/master; else cancel the master schedule and ramp from its
current value to the target over 0.5 s. -/
def masterEffect (s : Engine) (now : ℚ) (isRunning isBreak : Bool) : Engine :=
  if s.ctxCreated then
    match s.master with
    | some mr =>
        let tgt := masterGainTarget s.enabled isRunning isBreak s.volume
        { s with master := some (mr.rampTo now tgt 0.5) }
    | none => s
  else s

inductive Ev where
  | setMode (m : SoundMode)
  | setEnabled (flag : Bool)
  | setVolume (v : ℚ)
deriving DecidableEq, Repr

def applyEv (s : Engine) (now : ℚ) : Ev → Engine × Option AErr
  | .setMode m => setModeOp s now m
  | .setEnabled flag => setEnabledOp s now flag
  | .setVolume v => setVolumeOp s now v

/-- One UI event: run the handler, commit its queued state, then re-run the
master effect when one of its state dependencies (`enabled`, `volume`)
changed — the timer signal `(isRunning, isBreak)` is held fixed per run. -/
def step (tb : Bool × Bool) (s : Engine) (now : ℚ) (e : Ev) :
    Engine × Option AErr :=
  let r := applyEv s now e
  let s2 :=
    if r.1.enabled ≠ s.enabled ∨ r.1.volume ≠ s.volume then
      masterEffect r.1 now tb.1 tb.2
    else r.1
  (s2, r.2)

/-- Run a list of timed events, collecting the per-event error outcome
(an uncaught handler exception does not stop later events). -/
def run (tb : Bool × Bool) : Engine → List (ℚ × Ev) → Engine × List (Option AErr)
  | s, [] => (s, [])
  | s, (t, e) :: rest =>
      let r := step tb s t e
      let r2 := run tb r.1 rest
      (r2.1, r.2 :: r2.2)


/-! ## Definitions used by the claim statements -/

/-- Stated from the spec's words (sections 4.4 and 8): target master-gain
multiplier is 0 when disabled, 1.0 when running and not on break, 0.3
otherwise, multiplied by the user volume.  To be compared with the code's
`masterGainTarget`. -/
def specMasterGainTarget (enabled isRunning isBreak : Bool) (volume : ℚ) : ℚ :=
  if enabled = false then 0
  else if isRunning = true ∧ isBreak = false then 1 * volume
  else (3 / 10) * volume

/-- Engine state after `setEnabled(true)` at time 0 from the initial state. -/
def sA : Engine := (run (false, false) Engine.init [(0, .setEnabled true)]).1

/-- The current graph of `sA`: the rain graph, with its gain ramp parked at
0 (the stale-closure target). -/
def gA : Graph :=
  { gmode := .rain, gain := ⟨0, 0, 1/2, 0⟩, source := ⟨true, none⟩
    spraySource := none, lfoOsc := none, panOsc := none
    masterIdx := some 1, disconnectedAt := none }

/-- Engine state after `setEnabled(true)` then `setVolume(0.5)`, both at
time 0, from the initial state. -/
def sB : Engine :=
  (run (false, false) Engine.init [(0, .setEnabled true), (0, .setVolume 0.5)]).1

/-- The current graph of `sB`: rain, gain ramping 0 → 0.5 over 0.2 s. -/
def gB : Graph :=
  { gmode := .rain, gain := ⟨0, 0, 1/5, 1/2⟩, source := ⟨true, none⟩
    spraySource := none, lfoOsc := none, panOsc := none
    masterIdx := some 1, disconnectedAt := none }

/-- The process-wide resource invariant of claim C9: the master gain stage
is created at most once, exactly when the audio context is created, and
every graph ever built (the current one and every retired one) connected
its output gain to that single master instance. -/
def EngineInv (s : Engine) : Prop :=
  s.masterCreations ≤ 1 ∧
  (s.ctxCreated = true ↔ s.masterCreations = 1) ∧
  s.master.isSome = s.ctxCreated ∧
  (∀ g, s.current = some g → g.masterIdx = some 1) ∧
  (∀ g ∈ s.retired, g.masterIdx = some 1)

/- Batteries marks the rational-number operations irreducible, which blocks
elaborator-side evaluation; the kernel is unaffected.  Re-allow unfolding so
that concrete engine runs can be settled by `decide`. -/
attribute [local semireducible] Rat.add Rat.mul Rat.inv Rat.sub Rat.ofScientific

/-! ## C1: the master-gain target function -/

/-- C1: the master-gain target recomputed on any change of
`(enabled, isRunning, isBreak, volume)` equals the spec's pure function —
0 when disabled, `1.0 × volume` when enabled, running and not on break,
`0.3 × volume` otherwise (including paused, not-on-break) — and at
`volume = 0.4` the four targets are 0, 0.4, 0.12, 0.12. -/
theorem masterTarget_spec (e r b : Bool) (v : ℚ) (h0 : 0 ≤ v) (h1 : v ≤ 1) :
    masterGainTarget e r b v = specMasterGainTarget e r b v ∧
    masterGainTarget false r b 0.4 = 0 ∧
    masterGainTarget true true false 0.4 = 0.4 ∧
    masterGainTarget true false false 0.4 = 0.12 ∧
    masterGainTarget true r true 0.4 = 0.12 := by
  refine ⟨?_, ?_, ?_, ?_, ?_⟩
  · cases e <;> cases r <;> cases b <;>
      simp [masterGainTarget, specMasterGainTarget] <;> norm_num
  · cases r <;> cases b <;> norm_num [masterGainTarget]
  · norm_num [masterGainTarget]
  · norm_num [masterGainTarget]
  · cases r <;> norm_num [masterGainTarget]

theorem masterTarget_spec_witness :
    (0 : ℚ) ≤ 0.4 ∧ (0.4 : ℚ) ≤ 1 ∧
    masterGainTarget true true false 0.4 = specMasterGainTarget true true false 0.4 ∧
    masterGainTarget true true false 0.4 = 0.4 :=
  ⟨by norm_num, by norm_num,
    (masterTarget_spec true true false 0.4 (by norm_num) (by norm_num)).1,
    (masterTarget_spec true true false 0.4 (by norm_num) (by norm_num)).2.2.1⟩

/-! ## C7: `setMode` while disabled is pure preference storage -/

/-- C7: for every mode `m`, calling `setMode(m)` while disabled changes
only the stored mode: no graph is built or torn down, no ramp scheduled,
and context, master gain, current graph, enabled flag and volume are
unchanged (the result is exactly the input state with `mode := m`), with
no error. -/
theorem setMode_disabled_pure (s : Engine) (now : ℚ) (m : SoundMode)
    (h : s.enabled = false) :
    setModeOp s now m = ({ s with mode := m }, none) := by
  simp [setModeOp, h]

theorem setMode_disabled_pure_witness :
    Engine.init.enabled = false ∧
    setModeOp Engine.init 0 .waves = ({ Engine.init with mode := .waves }, none) :=
  ⟨rfl, setMode_disabled_pure Engine.init 0 .waves rfl⟩

/-! ## C10: `setEnabled(false)` before any context is a safe no-op -/

/-- C10: calling `setEnabled(false)` before any audio context was created
records `enabled = false` and does nothing else: no context or master gain
is created, no ramp is scheduled, no graph is touched, and no error is
raised — even including the reactive master-gain effect that follows the
call. -/
theorem disable_before_context_noop (tb : Bool × Bool) (s : Engine) (now : ℚ)
    (h : s.ctxCreated = false) :
    step tb s now (.setEnabled false) = ({ s with enabled := false }, none) := by
  cases he : s.enabled <;>
    simp [step, applyEv, setEnabledOp, stopAll, masterEffect, h, he]

theorem disable_before_context_noop_witness :
    Engine.init.ctxCreated = false ∧
    step (false, false) Engine.init 0 (.setEnabled false) =
      ({ Engine.init with enabled := false }, none) :=
  ⟨rfl, disable_before_context_noop (false, false) Engine.init 0 rfl⟩

/-! ## C6: `setVolume` clamps, never rejects, ramps the graph gain -/

/-- C6: for every real input `v`, `setVolume(v)` clamps `v` to `[0,1]`,
stores the clamped value, never raises, and — when a mode graph is active —
cancels the pending ramps on the graph's output gain and schedules a linear
ramp from its current value toward the clamped volume over 0.2 s
(`Ramp.rampTo`), leaving the master gain's own ramp untouched (the record
equality carries `master` over unchanged). -/
theorem setVolume_spec (s : Engine) (now v : ℚ) (g : Graph)
    (hctx : s.ctxCreated = true) (hcur : s.current = some g) :
    0 ≤ max 0 (min 1 v) ∧ max 0 (min 1 v) ≤ 1 ∧
    (setVolumeOp s now v).2 = none ∧
    (setVolumeOp s now v).1 =
      { s with volume := max 0 (min 1 v),
               current := some { g with gain := g.gain.rampTo now (max 0 (min 1 v)) 0.2 } } := by
  refine ⟨le_max_left _ _, max_le (by norm_num) (min_le_left 1 v), rfl, ?_⟩
  simp [setVolumeOp, hctx, hcur]

theorem setVolume_spec_witness :
    sA.ctxCreated = true ∧ sA.current = some gA ∧
    (0 ≤ max 0 (min 1 (7 : ℚ)) ∧ max 0 (min 1 (7 : ℚ)) ≤ 1 ∧
     (setVolumeOp sA 3 7).2 = none ∧
     (setVolumeOp sA 3 7).1 =
       { sA with volume := max 0 (min 1 (7 : ℚ)),
                 current := some { gA with gain := gA.gain.rampTo 3 (max 0 (min 1 (7 : ℚ))) 0.2 } }) :=
  ⟨by decide, by decide, setVolume_spec sA 3 7 gA (by decide) (by decide)⟩

/-! ## C5: the disabled → enabled ramp (code bug: stale closure) -/

/-- C5 (code bug): on the disabled → enabled transition from the initial
state the engine does build the graph of the stored mode and does schedule
a linear gain ramp anchored at the current time over `FADE_TIME` = 0.5 s —
but the ramp goes from 0 to 0, not to the user volume 0.4: the target
`enabled ? volume : 0` in `startMode` reads the stale pre-update
`enabled = false` render closure. -/
theorem enable_ramp_target_zero :
    sA.current = some gA ∧
    gA.gmode = .rain ∧
    gA.gain = ⟨0, 0, FADE_TIME, 0⟩ ∧
    sA.volume = 0.4 ∧
    gA.gain.v1 ≠ sA.volume := by decide

/-! ## C8: `setEnabled(true)` twice (code bug: not idempotent) -/

/-- C8 (code bug): `setEnabled(true)` at time 0 and again at time 1, from
the initial state, does not reproduce the steady state of a single call:
both leave exactly one active rain graph, but the single call leaves the
graph's output-gain ramp target at 0 (the stale-closure bug of C5) while
the repeated call re-targets it to the stored volume 0.4. -/
theorem enable_twice_differs :
    ((run (false, false) Engine.init [(0, .setEnabled true)]).1.current.map
        fun g => (g.gmode, g.gain.v1)) = some (.rain, 0) ∧
    ((run (false, false) Engine.init
        [(0, .setEnabled true), (1, .setEnabled true)]).1.current.map
        fun g => (g.gmode, g.gain.v1)) = some (.rain, 0.4) ∧
    (0 : ℚ) ≠ 0.4 := by decide

/-! ## C2: enable → waves → volume scenario (code bug: double start) -/

/-- C2 (code bug): in the scenario `setEnabled(true)` (t=0),
`setMode('waves')` (t=1), `setVolume(0.8)` (t=2) the second call throws:
`buildModeNodes` already starts the waves body source during construction
and `startMode` then calls `nodes.source.start()` on it again, an
InvalidStateError.  The remaining parts of the claim do hold afterwards:
exactly one waves-mode graph is current, and the volume change cancels the
in-flight master-gain ramp and restarts it from the master gain's current
value 0.12 — not from 0 — toward 0.3 × 0.8 = 0.24. -/
theorem waves_scenario_throws :
    (run (false, false) Engine.init
        [(0, .setEnabled true), (1, .setMode .waves), (2, .setVolume 0.8)]).2 =
      [none, some .invalidState, none] ∧
    ((run (false, false) Engine.init
        [(0, .setEnabled true), (1, .setMode .waves), (2, .setVolume 0.8)]).1.current.map
        fun g => g.gmode) = some .waves ∧
    (run (false, false) Engine.init
        [(0, .setEnabled true), (1, .setMode .waves), (2, .setVolume 0.8)]).1.master =
      some ⟨2, 0.12, 2.5, 0.24⟩ ∧
    (0.12 : ℚ) ≠ 0 := by decide

/-! ## C3: crossfade choreography -/

/-- C3 counterexample: at a concrete mode change while enabled (rain → wind
at time 1, with the old gain at 0.5): the retired rain graph's gain is
scheduled to fade to 0 over `[1, 1.5]` and its buffer source to stop at
1.5, but ALL of its nodes are disconnected at time 1 — the instant of the
change — so its resources are not released "only after that fade":
disconnection does not wait for `now + FADE_TIME`. -/
theorem disconnect_before_fade_cex :
    ((run (false, false) Engine.init
        [(0, .setEnabled true), (0, .setVolume 0.5), (1, .setMode .wind)]).1.retired.map
      fun g => (g.gain, g.source.stopAt, g.disconnectedAt)) =
      [(⟨1, 0.5, 1 + FADE_TIME, 0⟩, some (1 + FADE_TIME), some 1)] ∧
    ¬ (1 + FADE_TIME ≤ (1 : ℚ)) := by decide

/-- Helper: a `FADE_TIME` ramp read at the fade midpoint interpolates to
the average of its endpoints. -/
theorem valueAt_fade_mid (now v w : ℚ) :
    Ramp.valueAt ⟨now, v, now + FADE_TIME, w⟩ (now + FADE_TIME / 2) = (v + w) / 2 := by
  have h1 : ¬ (now + FADE_TIME / 2 ≤ now) := by norm_num [FADE_TIME]
  have h2 : ¬ (now + FADE_TIME ≤ now + FADE_TIME / 2) := by norm_num [FADE_TIME]
  rw [Ramp.valueAt]
  simp only [h1, h2, if_false]
  have h3 : now + FADE_TIME / 2 - now = FADE_TIME / 2 := by ring
  have h4 : now + FADE_TIME - now = FADE_TIME := by ring
  rw [h3, h4]
  norm_num [FADE_TIME]
  ring

/-- C3 as amended: on a mode change while enabled whose start raises no
error, the old graph's gain is scheduled to fade from its current value to
0 over `FADE_TIME` and its buffer source to stop at `now + FADE_TIME` — but
its nodes are disconnected immediately at `now`, not only after the fade.
The new graph's gain ramps from 0 to the current target (the rendered
volume) over the same window.  Provided the outgoing gain's value at the
moment of the change and the stored volume are both positive, at the fade
midpoint both the outgoing and the incoming graphs' scheduled output gains
are simultaneously greater than 0; with a zero outgoing gain (e.g. a graph
still parked at 0 by the stale-closure enable bug) or zero volume, the
outgoing or incoming schedule is the flat ramp 0 → 0 and there is no
overlap. -/
theorem crossfade_amended (s : Engine) (now : ℚ) (m : SoundMode) (g : Graph)
    (hen : s.enabled = true) (hcur : s.current = some g)
    (hst : g.source.started = true) (hv : 0 < g.gain.valueAt now)
    (hvol : 0 < s.volume) (hok : (setModeOp s now m).2 = none) :
    ((setModeOp s now m).1.retired.head?.map
        fun go => (go.gain, go.source.stopAt, go.disconnectedAt)) =
      some (⟨now, g.gain.valueAt now, now + FADE_TIME, 0⟩,
            some (now + FADE_TIME), some now) ∧
    ((setModeOp s now m).1.current.map fun gn => gn.gain) =
      some ⟨now, 0, now + FADE_TIME, s.volume⟩ ∧
    0 < Ramp.valueAt ⟨now, g.gain.valueAt now, now + FADE_TIME, 0⟩
        (now + FADE_TIME / 2) ∧
    0 < Ramp.valueAt ⟨now, 0, now + FADE_TIME, s.volume⟩ (now + FADE_TIME / 2) := by
  have hnw : m ≠ .waves := by
    intro h
    subst h
    by_cases hc : s.ctxCreated <;>
      simp [setModeOp, startMode, resumeContextIfNeeded, ensureContext,
            buildModeNodes, hen, hcur, hc] at hok
  refine ⟨?_, ?_, ?_, ?_⟩
  · cases m with
    | waves => exact absurd rfl hnw
    | rain =>
        by_cases hc : s.ctxCreated <;>
          simp [setModeOp, startMode, resumeContextIfNeeded, ensureContext,
                buildModeNodes, stopModeNodes, stopCaught, Ramp.rampTo,
                hen, hcur, hst, hc]
    | wind =>
        by_cases hc : s.ctxCreated <;>
          simp [setModeOp, startMode, resumeContextIfNeeded, ensureContext,
                buildModeNodes, stopModeNodes, stopCaught, Ramp.rampTo,
                hen, hcur, hst, hc]
  · cases m with
    | waves => exact absurd rfl hnw
    | rain =>
        by_cases hc : s.ctxCreated <;>
          simp [setModeOp, startMode, resumeContextIfNeeded, ensureContext,
                buildModeNodes, hen, hcur, hc]
    | wind =>
        by_cases hc : s.ctxCreated <;>
          simp [setModeOp, startMode, resumeContextIfNeeded, ensureContext,
                buildModeNodes, hen, hcur, hc]
  · rw [valueAt_fade_mid]
    linarith
  · rw [valueAt_fade_mid]
    linarith

theorem crossfade_amended_witness :
    sB.enabled = true ∧ sB.current = some gB ∧ gB.source.started = true ∧
    (0 : ℚ) < gB.gain.valueAt 1 ∧ (0 : ℚ) < sB.volume ∧
    (setModeOp sB 1 .wind).2 = none ∧
    (((setModeOp sB 1 .wind).1.retired.head?.map
        fun go => (go.gain, go.source.stopAt, go.disconnectedAt)) =
      some (⟨1, gB.gain.valueAt 1, 1 + FADE_TIME, 0⟩,
            some (1 + FADE_TIME), some 1) ∧
     ((setModeOp sB 1 .wind).1.current.map fun gn => gn.gain) =
      some ⟨1, 0, 1 + FADE_TIME, sB.volume⟩ ∧
     0 < Ramp.valueAt ⟨1, gB.gain.valueAt 1, 1 + FADE_TIME, 0⟩ (1 + FADE_TIME / 2) ∧
     0 < Ramp.valueAt ⟨1, 0, 1 + FADE_TIME, sB.volume⟩ (1 + FADE_TIME / 2)) :=
  ⟨by decide, by decide, by decide, by decide, by decide, by decide,
   crossfade_amended sB 1 .wind gB (by decide) (by decide) (by decide)
     (by decide) (by decide) (by decide)⟩

/-! ## C4: noise buffer length and sample ranges -/

/-- Helper: the brown-noise leaky integrator stays in `[-1, 1]` for every
valid draw of the random stream. -/
theorem brownLast_bounded (rs : ℕ → ℚ) (hr : ∀ i, 0 ≤ rs i ∧ rs i < 1)
    (n : ℕ) : -1 ≤ brownLast rs n ∧ brownLast rs n ≤ 1 := by
  induction n with
  | zero => norm_num [brownLast]
  | succ i ih =>
      obtain ⟨h0, h1⟩ := hr i
      obtain ⟨ihl, ihr⟩ := ih
      have hw1 : -1 ≤ whiteAt rs i := by simp only [whiteAt]; linarith
      have hw2 : whiteAt rs i ≤ 1 := by simp only [whiteAt]; linarith
      constructor
      · rw [brownLast, le_div_iff₀ (by norm_num : (0 : ℚ) < 1.02)]
        nlinarith [hw1]
      · rw [brownLast, div_le_iff₀ (by norm_num : (0 : ℚ) < 1.02)]
        nlinarith [hw2]

/-- C4 counterexample: with the valid constant draw `Math.random() = 0.99`
(white sample 0.98), an 18-sample brown buffer (`sampleRate = 18`,
`durationSec = 1`) contains a sample greater than 1: the 3.5 normalization
gain pushes the integrator output out of `[-1, 1]`, so not every sample of
every draw lies in `[-1, 1]`. -/
theorem brown_exceeds_one_cex :
    (0 ≤ (99 : ℚ) / 100 ∧ (99 : ℚ) / 100 < 1) ∧
    ¬ (∀ x ∈ createNoiseBuffer .brown (fun _ => 99 / 100) 18 1,
        -1 ≤ x ∧ x ≤ 1) := by
  constructor
  · norm_num
  · decide

/-- C4 as amended: for every noise color and all positive sizes the buffer
has `sampleRate × durationSec` samples; white samples lie in `[-1, 1]` for
every draw; brown samples lie in `[-3.5, 3.5]` for every draw (but, per the
counterexample, not always in `[-1, 1]`); the pink and brown normalization
gains 0.11 and 3.5 only keep the amplitude approximately within `[-1, 1]`. -/
theorem noise_amended (c : NoiseColor) (rs : ℕ → ℚ)
    (sampleRate durationSec : ℕ) (hr : ∀ i, 0 ≤ rs i ∧ rs i < 1) :
    (createNoiseBuffer c rs sampleRate durationSec).length =
      sampleRate * durationSec ∧
    (∀ x ∈ createNoiseBuffer .white rs sampleRate durationSec,
      -1 ≤ x ∧ x ≤ 1) ∧
    (∀ x ∈ createNoiseBuffer .brown rs sampleRate durationSec,
      -3.5 ≤ x ∧ x ≤ 3.5) := by
  refine ⟨by simp [createNoiseBuffer], ?_, ?_⟩
  · intro x hx
    simp only [createNoiseBuffer, List.mem_map, List.mem_range] at hx
    obtain ⟨i, _, rfl⟩ := hx
    obtain ⟨h0, h1⟩ := hr i
    simp only [noiseSample, whiteAt]
    constructor <;> linarith
  · intro x hx
    simp only [createNoiseBuffer, List.mem_map, List.mem_range] at hx
    obtain ⟨i, _, rfl⟩ := hx
    obtain ⟨hl, hu⟩ := brownLast_bounded rs hr (i + 1)
    simp only [noiseSample]
    constructor <;> nlinarith

theorem noise_amended_witness :
    (0 ≤ (1 : ℚ) / 2 ∧ (1 : ℚ) / 2 < 1) ∧
    ((createNoiseBuffer .pink (fun _ => 1 / 2) 2 3).length = 2 * 3 ∧
     (∀ x ∈ createNoiseBuffer .white (fun _ => 1 / 2) 2 3, -1 ≤ x ∧ x ≤ 1) ∧
     (∀ x ∈ createNoiseBuffer .brown (fun _ => 1 / 2) 2 3,
       -3.5 ≤ x ∧ x ≤ 3.5)) :=
  ⟨by norm_num,
   noise_amended .pink (fun _ => 1 / 2) 2 3 (fun _ => by norm_num)⟩

/-! ## C9: the single-master invariant -/

/-- Fading and disconnecting a graph does not change which master it was
connected to. -/
theorem stopModeNodes_masterIdx (g : Graph) (now : ℚ) :
    (stopModeNodes g now).masterIdx = g.masterIdx := rfl

/-- Every freshly built graph records the master instance present at build
time. -/
theorem buildModeNodes_masterIdx (hasMaster : Bool) (mcount : ℕ)
    (m : SoundMode) :
    (buildModeNodes hasMaster mcount m).masterIdx =
      if hasMaster then some mcount else none := by
  cases m <;> rfl

theorem engineInv_init : EngineInv Engine.init :=
  ⟨by simp [Engine.init], by simp [Engine.init], rfl,
   by simp [Engine.init], by simp [Engine.init]⟩

/-- After `ensureContext` the invariant still holds and, in addition, the
context exists, the master gain exists, and it is creation number 1. -/
theorem ensureContext_facts (s : Engine) (h : EngineInv s) :
    EngineInv (ensureContext s) ∧
    (ensureContext s).ctxCreated = true ∧
    (ensureContext s).master.isSome = true ∧
    (ensureContext s).masterCreations = 1 ∧
    (ensureContext s).current = s.current ∧
    (ensureContext s).retired = s.retired := by
  obtain ⟨e1, e2, e3, e4, e5⟩ := h
  by_cases hc : s.ctxCreated = true
  · have hmc : s.masterCreations = 1 := e2.mp hc
    have hid : ensureContext s = s := by simp [ensureContext, hc]
    rw [hid]
    exact ⟨⟨e1, e2, e3, e4, e5⟩, hc, by rw [e3]; exact hc, hmc, rfl, rfl⟩
  · have hmc : s.masterCreations = 0 := by
      have hne : s.masterCreations ≠ 1 := fun hh => hc (e2.mpr hh)
      omega
    simp only [ensureContext, hc, if_false]
    refine ⟨⟨by simp [hmc], by simp [hmc], by simp, ?_, ?_⟩,
            by simp, by simp, by simp [hmc], rfl, rfl⟩
    · exact e4
    · exact e5

theorem startMode_inv (s : Engine) (now : ℚ) (m : SoundMode)
    (h : EngineInv s) : EngineInv (startMode s now m).1 := by
  obtain ⟨hE, hctx, hsome, hmc, hcur, hret⟩ := ensureContext_facts s h
  obtain ⟨e1, e2, e3, e4, e5⟩ := hE
  have hb : (buildModeNodes (ensureContext s).master.isSome
      (ensureContext s).masterCreations m).masterIdx = some 1 := by
    rw [buildModeNodes_masterIdx, hsome, hmc]
    rfl
  simp only [startMode, resumeContextIfNeeded]
  cases hcc : (ensureContext s).current with
  | none =>
      simp only [hcc]
      split
      · exact ⟨e1, e2, e3, by intro g hg; injection hg with hh; subst hh; exact hb, e5⟩
      · exact ⟨e1, e2, e3, by intro g hg; injection hg with hh; subst hh; exact hb, e5⟩
  | some old =>
      have hold : old.masterIdx = some 1 := e4 old hcc
      simp only [hcc]
      split
      · refine ⟨e1, e2, e3, ?_, ?_⟩
        · intro g hg
          injection hg with hh
          subst hh
          exact hb
        · intro g hg
          rcases List.mem_cons.mp hg with hg1 | hg2
          · subst hg1
            rw [stopModeNodes_masterIdx]
            exact hold
          · exact e5 g hg2
      · refine ⟨e1, e2, e3, ?_, ?_⟩
        · intro g hg
          injection hg with hh
          subst hh
          exact hb
        · intro g hg
          rcases List.mem_cons.mp hg with hg1 | hg2
          · subst hg1
            rw [stopModeNodes_masterIdx]
            exact hold
          · exact e5 g hg2

theorem stopAll_inv (s : Engine) (now : ℚ) (h : EngineInv s) :
    EngineInv (stopAll s now) := by
  obtain ⟨e1, e2, e3, e4, e5⟩ := h
  simp only [stopAll]
  split
  · cases hm : s.master with
    | none =>
        simp only [hm]
        cases hcc : s.current with
        | none => simp only [hcc]; exact ⟨e1, e2, e3, e4, e5⟩
        | some g =>
            simp only [hcc]
            have e3m : (none : Option Ramp).isSome = s.ctxCreated := by
              rw [hm] at e3
              exact e3
            refine ⟨e1, e2, e3m, by simp, ?_⟩
            intro g2 hg2
            rcases List.mem_cons.mp hg2 with hg1 | hg3
            · subst hg1
              rw [stopModeNodes_masterIdx]
              exact e4 g hcc
            · exact e5 g2 hg3
    | some mr =>
        simp only [hm]
        have e3n : (some (mr.rampTo now 0 FADE_TIME)).isSome = s.ctxCreated := by
          rw [← e3, hm]
          rfl
        cases hcc : s.current with
        | none => simp only [hcc]; exact ⟨e1, e2, e3n, by simp, e5⟩
        | some g =>
            simp only [hcc]
            refine ⟨e1, e2, e3n, by simp, ?_⟩
            intro g2 hg2
            rcases List.mem_cons.mp hg2 with hg1 | hg3
            · subst hg1
              rw [stopModeNodes_masterIdx]
              exact e4 g hcc
            · exact e5 g2 hg3
  · exact ⟨e1, e2, e3, e4, e5⟩

theorem setVolumeOp_inv (s : Engine) (now v : ℚ) (h : EngineInv s) :
    EngineInv (setVolumeOp s now v).1 := by
  obtain ⟨e1, e2, e3, e4, e5⟩ := h
  simp only [setVolumeOp]
  split
  · cases hcc : s.current with
    | none => simp only [hcc]; exact ⟨e1, e2, e3, by simp, e5⟩
    | some g =>
        simp only [hcc]
        refine ⟨e1, e2, e3, ?_, e5⟩
        intro g2 hg2
        injection hg2 with hh
        subst hh
        exact e4 g hcc
  · exact ⟨e1, e2, e3, e4, e5⟩

theorem masterEffect_inv (s : Engine) (now : ℚ) (r b : Bool)
    (h : EngineInv s) : EngineInv (masterEffect s now r b) := by
  obtain ⟨e1, e2, e3, e4, e5⟩ := h
  simp only [masterEffect]
  split
  · cases hm : s.master with
    | none => simp only [hm]; exact ⟨e1, e2, e3, e4, e5⟩
    | some mr =>
        simp only [hm]
        refine ⟨e1, e2, ?_, e4, e5⟩
        rw [← e3, hm]
        rfl
  · exact ⟨e1, e2, e3, e4, e5⟩

theorem setModeOp_inv (s : Engine) (now : ℚ) (m : SoundMode)
    (h : EngineInv s) : EngineInv (setModeOp s now m).1 := by
  simp only [setModeOp]
  split
  · exact startMode_inv s now m h
  · exact h

theorem setEnabledOp_inv (s : Engine) (now : ℚ) (flag : Bool)
    (h : EngineInv s) : EngineInv (setEnabledOp s now flag).1 := by
  simp only [setEnabledOp, resumeContextIfNeeded]
  split
  · exact startMode_inv (ensureContext s) now s.mode (ensureContext_facts s h).1
  · exact stopAll_inv s now h

theorem step_inv (tb : Bool × Bool) (s : Engine) (now : ℚ) (e : Ev)
    (h : EngineInv s) : EngineInv (step tb s now e).1 := by
  have h1 : EngineInv (applyEv s now e).1 := by
    cases e with
    | setMode m => exact setModeOp_inv s now m h
    | setEnabled flag => exact setEnabledOp_inv s now flag h
    | setVolume v => exact setVolumeOp_inv s now v h
  simp only [step]
  split
  · exact masterEffect_inv _ _ _ _ h1
  · exact h1

/-- C9: after any sequence of public operations from the initial state, the
engine satisfies `EngineInv`: the master gain stage was created at most
once, exactly when the audio context was created, and every mode graph ever
built — current or retired, rain, wind or waves — connected its output gain
to that single persistent master instance. -/
theorem master_invariant (tb : Bool × Bool) (evs : List (ℚ × Ev)) :
    EngineInv (run tb Engine.init evs).1 := by
  suffices hrun : ∀ (l : List (ℚ × Ev)) (s : Engine), EngineInv s →
      EngineInv (run tb s l).1 from hrun evs Engine.init engineInv_init
  intro l
  induction l with
  | nil => intro s hs; exact hs
  | cons te rest ih =>
      intro s hs
      obtain ⟨t, e⟩ := te
      simp only [run]
      exact ih _ (step_inv tb s t e hs)

end FlowState
